import Mathlib

/-!
Verification of the omnicloud-resilience-pulumi repository.

Python strings are modelled as `List Char` (`PyStr`); the pure helpers of
`src/components/_helpers.py`, the configuration loader of `src/config.py`,
and the host-extraction lambda of `src/__main__.py` are translated
definition-by-definition.  Pulumi-engine behaviour (dependency-graph
teardown ordering) has no source under `src/` and is modelled from the
specification where a claim needs it.
-/

namespace Omnicloud

/-- A Python `str`, modelled as its list of characters. -/
abbrev PyStr := List Char

/-- From `src/components/_helpers.py`, `ensure_trailing_dot`:
`return domain if domain.endswith(".") else f"{domain}."`.
`domain.endswith(".")` is `['.'] <:+ domain`. -/
def ensure_trailing_dot (domain : PyStr) : PyStr :=
  if ['.'] <:+ domain then domain else domain ++ ['.']

/-- From `src/components/_helpers.py`, `fqdn`:
`base = ensure_trailing_dot(domain)`; then
`return f"{subdomain}.{base}" if not base.startswith(f"{subdomain}.") else base`. -/
def fqdn (domain subdomain : PyStr) : PyStr :=
  let base := ensure_trailing_dot domain
  if ¬ ((subdomain ++ ['.']) <+: base) then subdomain ++ ['.'] ++ base else base

/-- From `src/components/_helpers.py`, `cname_rrdata`:
`return [target if target.endswith(".") else f"{target}."]`. -/
def cname_rrdata (target : PyStr) : List PyStr :=
  [if ['.'] <:+ target then target else target ++ ['.']]

/-- Python slice `l[:k]` for an `int` bound `k`: non-negative `k` keeps the
first `k` elements; negative `k` keeps all but the last `-k` (clamped at 0). -/
def pySliceTo (l : PyStr) (k : Int) : PyStr :=
  if k < 0 then l.take (l.length - k.natAbs) else l.take k.toNat

/-- From `src/components/_helpers.py`, `sanitize_storage_account_name`:
`cleaned = prefix.replace("-", "").replace("_", "")[: max_len - 2]`;
`return f"{cleaned}sa"`.  `str.replace(c, "")` removes every occurrence of
the character; the slice bound `max_len - 2` is a Python `int`. -/
def sanitize_storage_account_name (pfx : PyStr) (max_len : Int) : PyStr :=
  let cleaned := pySliceTo ((pfx.filter (fun c => c != '-')).filter (fun c => c != '_')) (max_len - 2)
  cleaned ++ ['s', 'a']

/-- The literal `"https://"` removed by the orchestrator's lambda. -/
def HTTPS : PyStr := 'h' :: 't' :: 't' :: 'p' :: 's' :: ':' :: '/' :: '/' :: []

/-- Python `url.replace("https://", "")`: scan left to right, removing every
(non-overlapping) occurrence of `"https://"`. -/
def strip_https : PyStr → PyStr
  | 'h' :: 't' :: 't' :: 'p' :: 's' :: ':' :: '/' :: '/' :: rest => strip_https rest
  | c :: rest => c :: strip_https rest
  | [] => []

/-- From `src/__main__.py`, the `backup_host` lambda:
`lambda url: url.replace("https://", "").split("/")[0]`.
`s.split("/")[0]` is the longest `'/'`-free leading segment. -/
def backup_host (url : PyStr) : PyStr :=
  (strip_https url).takeWhile (fun c => c != '/')

/-- From `src/components/azure.py`, `AzureInfra.primary_endpoint`:
`pulumi.Output.concat("https://", self.storage_account.name, ".blob.core.windows.net/")`
with `account_name` the storage account's name. -/
def primary_endpoint (account_name : PyStr) : PyStr :=
  "https://".toList ++ account_name ++ ".blob.core.windows.net/".toList

/-- Removing a leading `"https://"` occurrence. -/
lemma strip_https_append (x : PyStr) : strip_https (HTTPS ++ x) = strip_https x := rfl

/-- When `"https://"` does not begin the string, `strip_https` keeps the head. -/
lemma strip_https_cons_neg {c : Char} {rest : PyStr} (h : ¬ HTTPS <+: (c :: rest)) :
    strip_https (c :: rest) = c :: strip_https rest := by
  rw [strip_https.eq_def]
  split
  · rename_i rest' heq
    exact absurd (by rw [heq]; exact ⟨rest', rfl⟩) h
  · rename_i c' rest' hno heq
    injection heq with h1 h2
    subst h1
    subst h2
    rfl
  · rename_i heq
    exact absurd heq (by simp)

/-- `"https://"` cannot begin `h ++ "/" ++ r` when `h` is free of `':'`:
the pattern's `':'` sits at index 5, which would have to fall inside `h`
or on the `'/'` separator. -/
lemma https_not_prefix_slash {h r : PyStr} (hc : ':' ∉ h) :
    ¬ HTTPS <+: (h ++ '/' :: r) := by
  intro hp
  obtain ⟨t, ht⟩ := hp
  by_cases hn : 5 < h.length
  · have hL : (h ++ '/' :: r)[5]? = some ':' := by
      rw [← ht, List.getElem?_append]
      simp [HTTPS]
    rw [List.getElem?_append] at hL
    simp [hn] at hL
    exact hc (hL ▸ List.getElem_mem hn)
  · push_neg at hn
    have hL : (h ++ '/' :: r)[h.length]? = some '/' := by
      rw [List.getElem?_append_right (le_refl h.length)]
      simp
    rw [← ht, List.getElem?_append] at hL
    have h8 : h.length < HTTPS.length := by
      simp only [HTTPS]
      simp
      omega
    rw [if_pos h8] at hL
    set m := h.length with hm
    interval_cases m <;> simp [HTTPS] at hL

/-- `strip_https` passes over a `':'`-free segment up to a `'/'` untouched. -/
lemma strip_https_colon_free : ∀ h : PyStr, ':' ∉ h → ∀ r : PyStr,
    strip_https (h ++ '/' :: r) = h ++ '/' :: strip_https r := by
  intro h
  induction h with
  | nil =>
    intro _ r
    rw [List.nil_append, strip_https_cons_neg (https_not_prefix_slash (h := []) (by simp))]
    simp
  | cons c h' ih =>
    intro hc r
    have hc' : ':' ∉ h' := fun m => hc (List.mem_cons_of_mem _ m)
    rw [List.cons_append, strip_https_cons_neg]
    · rw [ih hc' r]
      simp
    · have hx := https_not_prefix_slash (h := c :: h') (r := r) hc
      simpa using hx

/-- If `"https://"` occurs nowhere in the string, `strip_https` is the
identity. -/
lemma strip_https_of_no_infix : ∀ l : PyStr, ¬ HTTPS <:+: l → strip_https l = l := by
  intro l
  induction l with
  | nil => intro _; rfl
  | cons c rest ih =>
    intro hni
    have hnp : ¬ HTTPS <+: (c :: rest) := fun hp => hni hp.isInfix
    rw [strip_https_cons_neg hnp, ih (fun hi => hni (List.infix_cons hi))]

/-- An occurrence of `"https://"` forces two adjacent `'/'` characters. -/
lemma exists_adjacent_slashes {l : PyStr} (hi : HTTPS <:+: l) :
    ∃ i, l[i]? = some '/' ∧ l[i + 1]? = some '/' := by
  obtain ⟨u, v, huv⟩ := hi
  have hlen : u.length + 6 + 2 ≤ (u ++ HTTPS).length := by
    simp only [List.length_append, HTTPS]
    simp
  refine ⟨u.length + 6, ?_, ?_⟩
  · rw [← huv, List.append_assoc, List.getElem?_append_right (by omega : u.length ≤ u.length + 6)]
    simp [HTTPS]
  · rw [← huv, List.append_assoc, List.getElem?_append_right (by omega : u.length ≤ u.length + 6 + 1)]
    have e : u.length + 6 + 1 - u.length = 7 := by omega
    rw [e]
    simp [HTTPS]

/-- In `s ++ d ++ "/"` with `'/'`-free `s` and `d`, the only `'/'` is the last
character. -/
lemma slash_only_last {s d : PyStr} (hs : '/' ∉ s) (hd : '/' ∉ d) :
    ∀ i, ((s ++ d) ++ ['/'])[i]? = some '/' → i = s.length + d.length := by
  intro i hi
  by_cases h : i < (s ++ d).length
  · rw [List.getElem?_append, if_pos h] at hi
    obtain ⟨hlt, hEq⟩ := List.getElem?_eq_some.mp hi
    have hmem : '/' ∈ s ++ d := hEq ▸ List.getElem_mem hlt
    rcases List.mem_append.mp hmem with hm | hm
    · exact absurd hm hs
    · exact absurd hm hd
  · push_neg at h
    rw [List.getElem?_append_right h] at hi
    have : i - (s ++ d).length = 0 := by
      by_contra hne
      rcases Nat.exists_eq_succ_of_ne_zero hne with ⟨k, hk⟩
      rw [hk] at hi
      simp at hi
    simp only [List.length_append] at h this
    omega

/-- All characters of a `'/'`-free list pass the `(· != '/')` test. -/
lemma ne_slash_all {l : PyStr} (h : '/' ∉ l) : ∀ c ∈ l, (c != '/') = true := by
  intro c hc
  simp only [bne_iff_ne, ne_eq]
  intro he
  exact h (he ▸ hc)

/-- `takeWhile` walks through a wholly-satisfying segment. -/
lemma takeWhile_append_of_all {p : Char → Bool} : ∀ l₁ l₂ : PyStr,
    (∀ c ∈ l₁, p c = true) → (l₁ ++ l₂).takeWhile p = l₁ ++ l₂.takeWhile p := by
  intro l₁
  induction l₁ with
  | nil => simp
  | cons c t ih =>
    intro l₂ h
    rw [List.cons_append, List.takeWhile_cons, if_pos (h c (by simp))]
    rw [ih l₂ (fun x hx => h x (by simp [hx])), List.cons_append]

/-- `ensure_trailing_dot` always yields a string ending in `'.'`. -/
lemma dot_suffix_ensure (d : PyStr) : ['.'] <:+ ensure_trailing_dot d := by
  unfold ensure_trailing_dot
  split
  · assumption
  · exact List.suffix_append _ _

/-- `ensure_trailing_dot` leaves a string ending in `'.'` unchanged. -/
lemma ensure_of_dot {s : PyStr} (h : ['.'] <:+ s) : ensure_trailing_dot s = s :=
  if_pos h

/-- C1: for every domain and label, `fqdn domain label` is
`label ++ "." ++ ensure_trailing_dot domain`, unless `ensure_trailing_dot domain`
already begins with `label ++ "."`, in which case it is
`ensure_trailing_dot domain` unchanged; in particular
`fqdn "example.com" "www" = "www.example.com."`,
`fqdn "example.com." "www" = "www.example.com."`, and
`fqdn "www.example.com" "www" = "www.example.com."`. -/
theorem claim1_fqdn_spec : (∀ d l : PyStr, fqdn d l =
      if (l ++ ['.']) <+: ensure_trailing_dot d then ensure_trailing_dot d
      else l ++ ['.'] ++ ensure_trailing_dot d) ∧
    fqdn "example.com".toList "www".toList = "www.example.com.".toList ∧
    fqdn "example.com.".toList "www".toList = "www.example.com.".toList ∧
    fqdn "www.example.com".toList "www".toList = "www.example.com.".toList := by
  refine ⟨fun d l => ?_, by decide, by decide, by decide⟩
  by_cases h : (l ++ ['.']) <+: ensure_trailing_dot d
  · simp [fqdn, h]
  · simp [fqdn, h]

/-- C2 (counterexample): a prefix of thirty `'-'` characters has length ≥ 30,
yet `sanitize_storage_account_name` returns `"sa"`, whose length is 2, not 24. -/
theorem claim2_counterexample :
    30 ≤ (List.replicate 30 '-').length ∧
    sanitize_storage_account_name (List.replicate 30 '-') 24 = ['s', 'a'] ∧
    ¬ ((sanitize_storage_account_name (List.replicate 30 '-') 24).length = 24) := by
  decide

/-- C2 (amended): for every prefix of length at least 30 that retains at least
22 characters after `'-'` and `'_'` are removed (in particular any such prefix
free of `'-'` and `'_'`), `sanitize_storage_account_name pfx 24` has length
exactly 24 and ends in `"sa"`. -/
theorem claim2_sanitize_long : ∀ pfx : PyStr, 30 ≤ pfx.length →
    22 ≤ ((pfx.filter (fun c => c != '-')).filter (fun c => c != '_')).length →
    (sanitize_storage_account_name pfx 24).length = 24 ∧
    ['s', 'a'] <:+ sanitize_storage_account_name pfx 24 := by
  intro pfx _ h22
  constructor
  · have h22' : 22 ≤ (List.filter (fun a => a != '_' && a != '-') pfx).length := by
      simpa [List.filter_filter] using h22
    simp [sanitize_storage_account_name, pySliceTo, List.length_take]
    omega
  · exact List.suffix_append _ _

/-- C2 (witness): the amended claim at the concrete prefix of thirty `'a'`s. -/
theorem claim2_sanitize_long_witness :
    (sanitize_storage_account_name (List.replicate 30 'a') 24).length = 24 ∧
    ['s', 'a'] <:+ sanitize_storage_account_name (List.replicate 30 'a') 24 :=
  claim2_sanitize_long (List.replicate 30 'a') (by decide) (by decide)

/-- C5 (counterexample): at `max_len = 1` the Python slice bound `max_len - 2`
is negative, so `sanitize_storage_account_name "abc" 1 = "absa"`, of length 4,
violating the claimed bound `length ≤ max_len`. -/
theorem claim5_counterexample :
    sanitize_storage_account_name ('a' :: 'b' :: 'c' :: []) 1 =
      'a' :: 'b' :: 's' :: 'a' :: [] ∧
    ¬ (((sanitize_storage_account_name ('a' :: 'b' :: 'c' :: []) 1).length : Int) ≤ 1) := by
  decide

/-- C5 (amended): for every prefix and every `max_len ≥ 2`,
`sanitize_storage_account_name` removes `'-'` and `'_'`, truncates to
`max_len - 2` characters, and appends `"sa"`; the result's length is ≤
`max_len` and it always ends in `"sa"` (no padding when the cleaned prefix is
short).  For `max_len < 2` Python's negative slice bound drops trailing
characters instead, and the length bound fails. -/
theorem claim5_sanitize_shape : ∀ (pfx : PyStr) (max_len : Int), 2 ≤ max_len →
    sanitize_storage_account_name pfx max_len =
      ((pfx.filter (fun c => c != '-')).filter (fun c => c != '_')).take (max_len - 2).toNat
        ++ ['s', 'a'] ∧
    ((sanitize_storage_account_name pfx max_len).length : Int) ≤ max_len ∧
    ['s', 'a'] <:+ sanitize_storage_account_name pfx max_len := by
  intro pfx max_len h2
  have hcond : ¬ (max_len - 2 < 0) := by omega
  refine ⟨?_, ?_, List.suffix_append _ _⟩
  · simp [sanitize_storage_account_name, pySliceTo, hcond]
  · simp [sanitize_storage_account_name, pySliceTo, hcond, List.length_take]
    omega

/-- C5 (witness): the amended claim at the spec's example input
`("azure-dev", 24)`. -/
theorem claim5_sanitize_shape_witness :
    sanitize_storage_account_name "azure-dev".toList 24 =
      (("azure-dev".toList.filter (fun c => c != '-')).filter (fun c => c != '_')).take
          ((24 : Int) - 2).toNat ++ ['s', 'a'] ∧
    ((sanitize_storage_account_name "azure-dev".toList 24).length : Int) ≤ 24 ∧
    ['s', 'a'] <:+ sanitize_storage_account_name "azure-dev".toList 24 :=
  claim5_sanitize_shape "azure-dev".toList 24 (by decide)

/-- C6: `cname_rrdata target` is the one-element list holding
`ensure_trailing_dot target`; in particular
`cname_rrdata "cdn.example.com" = ["cdn.example.com."]` and
`cname_rrdata "cdn.example.com." = ["cdn.example.com."]`. -/
theorem claim6_cname_rrdata : (∀ t : PyStr, cname_rrdata t = [ensure_trailing_dot t]) ∧
    cname_rrdata "cdn.example.com".toList = ["cdn.example.com.".toList] ∧
    cname_rrdata "cdn.example.com.".toList = ["cdn.example.com.".toList] :=
  ⟨fun _ => rfl, by decide, by decide⟩

/-- C7: `ensure_trailing_dot` is idempotent, and it appends `'.'` exactly when
the string does not already end with `'.'`. -/
theorem claim7_ensure_idempotent : ∀ s : PyStr,
    ensure_trailing_dot (ensure_trailing_dot s) = ensure_trailing_dot s ∧
    ensure_trailing_dot s = if ['.'] <:+ s then s else s ++ ['.'] := by
  intro s
  refine ⟨?_, rfl⟩
  by_cases h : ['.'] <:+ s
  · simp [ensure_trailing_dot, h]
  · simp [ensure_trailing_dot, h, List.suffix_append]

/-- C8: `fqdn` is idempotent in its domain argument — re-applying it with the
same label never double-prefixes the label. -/
theorem claim8_fqdn_idempotent : ∀ d l : PyStr, fqdn (fqdn d l) l = fqdn d l := by
  intro d l
  by_cases h : (l ++ ['.']) <+: ensure_trailing_dot d
  · have h1 : fqdn d l = ensure_trailing_dot d := by simp [fqdn, h]
    rw [h1]
    simp [fqdn, ensure_of_dot (dot_suffix_ensure d), h]
  · have h1 : fqdn d l = l ++ '.' :: ensure_trailing_dot d := by simp [fqdn, h]
    have hs : ['.'] <:+ l ++ '.' :: ensure_trailing_dot d := by
      have hx := (dot_suffix_ensure d).trans
        (List.suffix_append (l ++ ['.']) (ensure_trailing_dot d))
      simpa using hx
    have hp : (l ++ ['.']) <+: l ++ '.' :: ensure_trailing_dot d := by
      simp
    rw [h1]
    simp [fqdn, ensure_of_dot hs, hp]

/-- C3 (counterexample): the orchestrator's host extraction does not strip an
arbitrary `scheme://` — on `"http://example.com/"` it leaves the scheme in
place and truncation at the first `'/'` yields `"http:"`, not
`"example.com"`. -/
theorem claim3_counterexample :
    backup_host "http://example.com/".toList = "http:".toList ∧
    ¬ (backup_host "http://example.com/".toList = "example.com".toList) := by
  decide

/-- C3 (amended): the host extraction removes every occurrence of the literal
substring `"https://"` (only that scheme, not `scheme://` in general) and
truncates the remainder at the first `'/'`; for any `':'`- and `'/'`-free
host it maps `"https://" ++ host ++ "/" ++ rest` to `host`, in particular
`"https://acctsa.blob.core.windows.net/"` to
`"acctsa.blob.core.windows.net"`. -/
theorem claim3_host_extraction : ∀ host rest : PyStr, ':' ∉ host → '/' ∉ host →
    backup_host ("https://".toList ++ host ++ '/' :: rest) = host := by
  intro host rest hc hs
  have hA : "https://".toList = HTTPS := by decide
  unfold backup_host
  rw [hA, List.append_assoc, strip_https_append, strip_https_colon_free host hc rest]
  rw [takeWhile_append_of_all host ('/' :: strip_https rest) (ne_slash_all hs)]
  rw [List.takeWhile_cons]
  simp

/-- C3 (witness): the amended claim at the spec's endpoint example. -/
theorem claim3_host_extraction_witness :
    backup_host ("https://".toList ++ "acctsa.blob.core.windows.net".toList ++ '/' :: []) =
      "acctsa.blob.core.windows.net".toList :=
  claim3_host_extraction "acctsa.blob.core.windows.net".toList [] (by decide) (by decide)

/-- C10: for every storage account name `s` containing neither `'/'` nor the
substring `"https://"`, the Azure composite's endpoint
`"https://" ++ s ++ ".blob.core.windows.net/"` is mapped by the
orchestrator's backup-host derivation to exactly
`s ++ ".blob.core.windows.net"`. -/
theorem claim10_endpoint_roundtrip : ∀ s : PyStr, '/' ∉ s →
    ¬ ("https://".toList <:+: s) →
    backup_host (primary_endpoint s) = s ++ ".blob.core.windows.net".toList := by
  intro s hs _
  have hD : '/' ∉ ".blob.core.windows.net".toList := by decide
  have e : primary_endpoint s =
      HTTPS ++ ((s ++ ".blob.core.windows.net".toList) ++ ['/']) := by
    have hA : "https://".toList = HTTPS := by decide
    have hDD : ".blob.core.windows.net/".toList =
        ".blob.core.windows.net".toList ++ ['/'] := by decide
    simp [primary_endpoint, hA, hDD, HTTPS, List.append_assoc]
  have hni : ¬ HTTPS <:+: ((s ++ ".blob.core.windows.net".toList) ++ ['/']) := by
    intro hi
    obtain ⟨i, h1, h2⟩ := exists_adjacent_slashes hi
    have e1 := slash_only_last hs hD i h1
    have e2 := slash_only_last hs hD (i + 1) h2
    omega
  have hall : ∀ c ∈ s ++ ".blob.core.windows.net".toList, (c != '/') = true := by
    intro c hcmem
    rcases List.mem_append.mp hcmem with hm | hm
    · exact ne_slash_all hs c hm
    · exact ne_slash_all hD c hm
  rw [e]
  unfold backup_host
  rw [strip_https_append, strip_https_of_no_infix _ hni]
  rw [takeWhile_append_of_all _ ['/'] hall]
  rw [show List.takeWhile (fun c => c != '/') ['/'] = [] from by decide]
  rw [List.append_nil]

/-- C10 (witness): the round trip at the concrete account name `"acctsa"`. -/
theorem claim10_endpoint_roundtrip_witness :
    backup_host (primary_endpoint "acctsa".toList) =
      "acctsa".toList ++ ".blob.core.windows.net".toList :=
  claim10_endpoint_roundtrip "acctsa".toList (by decide) (by decide)

/-! ## Configuration loading (`src/config.py`) -/

/-- Failure modes of configuration loading: `missing` models
`pulumi.Config.require` raising on an absent key, `invalidInt` models
Python's `int(...)` raising `ValueError`. -/
inductive ConfigError where
  | missing (key : PyStr)
  | invalidInt (key : PyStr)
deriving DecidableEq

/-- The flat Pulumi configuration: an association of key strings to value
strings (`pulumi.Config.require` returns `str`). -/
abbrev PulumiConfig := List (PyStr × PyStr)

/-- `pulumi.Config.require(key)`: the stored string, or a fatal error when the
key is absent. -/
def config_require (config : PulumiConfig) (key : PyStr) : Except ConfigError PyStr :=
  match config.lookup key with
  | some v => .ok v
  | none => .error (.missing key)

/-- From `src/config.py`, `_require_str`: `return config.require(key)`. -/
def _require_str (config : PulumiConfig) (key : PyStr) : Except ConfigError PyStr :=
  config_require config key

/-- Python's six ASCII whitespace characters, as removed by `str.strip()`. -/
def pyIsSpace (c : Char) : Bool :=
  c == ' ' || c == '\t' || c == '\n' || c == '\r' || c == '\x0b' || c == '\x0c'

/-- Python `str.strip()`. -/
def pyStrip (s : PyStr) : PyStr :=
  ((s.dropWhile pyIsSpace).reverse.dropWhile pyIsSpace).reverse

/-- Python `str.lower()` (ASCII case mapping). -/
def pyLower (s : PyStr) : PyStr :=
  s.map Char.toLower

/-- From `src/config.py`, `_require_bool`'s coercion:
`str(raw).strip().lower() in ("1", "true", "yes")`. -/
def pyTruthy (raw : PyStr) : Bool :=
  let t := pyLower (pyStrip raw)
  t == "1".toList || t == "true".toList || t == "yes".toList

/-- From `src/config.py`, `_require_bool`: requires the key, then coerces the
string to a boolean; it never fails on a present value.  (The
`isinstance(raw, bool)` branch cannot fire: `pulumi.Config.require` returns a
string.) -/
def _require_bool (config : PulumiConfig) (key : PyStr) : Except ConfigError Bool :=
  match config_require config key with
  | .error e => .error e
  | .ok raw => .ok (pyTruthy raw)

/-- Decimal digits with single `'_'` separators between digits, as accepted
after the sign by Python's `int(str)`; returns the value. -/
def pyDigitsAux : Nat → PyStr → Option Nat
  | acc, [] => some acc
  | acc, '_' :: c :: rest =>
    if c.isDigit then pyDigitsAux (acc * 10 + (c.toNat - 48)) rest else none
  | _, '_' :: [] => none
  | acc, c :: rest =>
    if c.isDigit then pyDigitsAux (acc * 10 + (c.toNat - 48)) rest else none

/-- A non-empty digit group (first character must be a digit). -/
def pyDigits : PyStr → Option Nat
  | [] => none
  | c :: rest => if c.isDigit then pyDigitsAux (c.toNat - 48) rest else none

/-- Python `int(str)`: surrounding whitespace, optional sign, decimal digits
(with `'_'` group separators); anything else raises `ValueError`, modelled as
`none`.  Non-ASCII digits are not modelled. -/
def pyParseInt (raw : PyStr) : Option Int :=
  match pyStrip raw with
  | '-' :: rest => (pyDigits rest).map (fun n => -(n : Int))
  | '+' :: rest => (pyDigits rest).map (fun n => (n : Int))
  | s => (pyDigits s).map (fun n => (n : Int))

/-- From `src/config.py`, `_require_int`: `int(config.require(key))`. -/
def _require_int (config : PulumiConfig) (key : PyStr) : Except ConfigError Int :=
  match config_require config key with
  | .error e => .error e
  | .ok raw =>
    match pyParseInt raw with
    | some n => .ok n
    | none => .error (.invalidInt key)

/-- From `src/config.py`, the `StackConfig` dataclass (fields in declaration
order). -/
structure StackConfig where
  domain_name : PyStr
  environment : PyStr
  aws_bucket_name : PyStr
  enable_azure_backup : Bool
  project_name : PyStr
  enable_public_access_block : Bool
  backup_retention_days : Int
  gcp_primary_ttl : Int
  gcp_backup_ttl : Int
deriving DecidableEq

/-- The nine keys of `_CONFIG_SPEC`, in declaration order. -/
def CONFIG_KEYS : List PyStr :=
  ["domain_name".toList, "environment".toList, "aws_bucket_name".toList,
   "enable_azure_backup".toList, "project_name".toList,
   "enable_public_access_block".toList, "backup_retention_days".toList,
   "gcp_primary_ttl".toList, "gcp_backup_ttl".toList]

/-- The keys parsed by `_require_int`. -/
def INT_KEYS : List PyStr :=
  ["backup_retention_days".toList, "gcp_primary_ttl".toList, "gcp_backup_ttl".toList]

/-- From `src/config.py`, `StackConfig.from_pulumi_config`: run each
`_CONFIG_SPEC` parser in declaration order; the first raising parser aborts
construction. -/
def from_pulumi_config (config : PulumiConfig) : Except ConfigError StackConfig :=
  (_require_str config "domain_name".toList).bind fun domain_name =>
  (_require_str config "environment".toList).bind fun environment =>
  (_require_str config "aws_bucket_name".toList).bind fun aws_bucket_name =>
  (_require_bool config "enable_azure_backup".toList).bind fun enable_azure_backup =>
  (_require_str config "project_name".toList).bind fun project_name =>
  (_require_bool config "enable_public_access_block".toList).bind fun enable_public_access_block =>
  (_require_int config "backup_retention_days".toList).bind fun backup_retention_days =>
  (_require_int config "gcp_primary_ttl".toList).bind fun gcp_primary_ttl =>
  (_require_int config "gcp_backup_ttl".toList).bind fun gcp_backup_ttl =>
  .ok ⟨domain_name, environment, aws_bucket_name, enable_azure_backup, project_name,
       enable_public_access_block, backup_retention_days, gcp_primary_ttl, gcp_backup_ttl⟩

/-- A configuration whose `enable_azure_backup` value `"banana"` is not a
boolean literal in any shape. -/
def badConfig : PulumiConfig :=
  [("domain_name".toList, "example.com".toList),
   ("environment".toList, "dev".toList),
   ("aws_bucket_name".toList, "bucket".toList),
   ("enable_azure_backup".toList, "banana".toList),
   ("project_name".toList, "omni".toList),
   ("enable_public_access_block".toList, "true".toList),
   ("backup_retention_days".toList, "30".toList),
   ("gcp_primary_ttl".toList, "300".toList),
   ("gcp_backup_ttl".toList, "60".toList)]

/-- C4 (counterexample): all nine keys present but `enable_azure_backup` set
to `"banana"` — a value of the wrong shape for a boolean — still constructs a
`StackConfig` (with the field silently coerced to `false`) instead of
failing. -/
theorem claim4_counterexample :
    from_pulumi_config badConfig =
      .ok ⟨"example.com".toList, "dev".toList, "bucket".toList, false,
           "omni".toList, true, 30, 300, 60⟩ := by
  rfl

/-- C4 (amended): `from_pulumi_config` succeeds exactly when every one of the
nine required keys is present and every integer key's value parses as a
Python `int`; a missing key is a fatal error (never a default substitution)
and an unparseable integer is a fatal error, while boolean keys coerce any
present value (true exactly for trimmed, lowercased `"1"`, `"true"`, `"yes"`)
and string keys accept any present value. -/
theorem claim4_config_characterization : ∀ config : PulumiConfig,
    (from_pulumi_config config).isOk =
      (CONFIG_KEYS.all (fun k => (config.lookup k).isSome) &&
       INT_KEYS.all (fun k => ((config.lookup k).bind pyParseInt).isSome)) := by
  intro config
  simp only [from_pulumi_config, _require_str, _require_bool, _require_int, config_require,
    CONFIG_KEYS, INT_KEYS, List.all_cons, List.all_nil]
  cases h1 : config.lookup "domain_name".toList with
  | none => simp [Except.bind, Except.isOk, Except.toBool]
  | some v1 =>
  cases h2 : config.lookup "environment".toList with
  | none => simp [Except.bind, Except.isOk, Except.toBool]
  | some v2 =>
  cases h3 : config.lookup "aws_bucket_name".toList with
  | none => simp [Except.bind, Except.isOk, Except.toBool]
  | some v3 =>
  cases h4 : config.lookup "enable_azure_backup".toList with
  | none => simp [Except.bind, Except.isOk, Except.toBool]
  | some v4 =>
  cases h5 : config.lookup "project_name".toList with
  | none => simp [Except.bind, Except.isOk, Except.toBool]
  | some v5 =>
  cases h6 : config.lookup "enable_public_access_block".toList with
  | none => simp [Except.bind, Except.isOk, Except.toBool]
  | some v6 =>
  cases h7 : config.lookup "backup_retention_days".toList with
  | none => simp [Except.bind, Except.isOk, Except.toBool]
  | some v7 =>
  cases h8 : config.lookup "gcp_primary_ttl".toList with
  | none => cases hp7 : pyParseInt v7 <;> simp [Except.bind, Except.isOk, Except.toBool, hp7]
  | some v8 =>
  cases h9 : config.lookup "gcp_backup_ttl".toList with
  | none =>
    cases hp7 : pyParseInt v7 <;> cases hp8 : pyParseInt v8 <;>
      simp [Except.bind, Except.isOk, Except.toBool, hp7, hp8]
  | some v9 =>
  cases hp7 : pyParseInt v7 with
  | none => simp [Except.bind, Except.isOk, Except.toBool, hp7]
  | some n7 =>
  cases hp8 : pyParseInt v8 with
  | none => simp [Except.bind, Except.isOk, Except.toBool, hp7, hp8]
  | some n8 =>
  cases hp9 : pyParseInt v9 with
  | none => simp [Except.bind, Except.isOk, Except.toBool, hp7, hp8, hp9]
  | some n9 => simp [Except.bind, Except.isOk, Except.toBool, hp7, hp8, hp9]

/-! ## Dependency graph teardown (spec §4.2)

The creation/teardown ordering engine is Pulumi's; the repository only
declares the graph (parents, `depends_on`, `retain_on_delete` in
`src/components/aws.py`).  The definitions below are therefore modelled from
the specification, not from source under `src/`. -/

/-- Modelled from the spec: a `ResourceNode` — one provisioned unit with a
stable identifier, a provider-resource kind, and the `retainOnTeardown` flag
(`retain_on_delete=True` on the `OriginAccessControl` in
`src/components/aws.py` is the one use). -/
structure ResourceNode where
  id : Nat
  kind : PyStr
  retainOnTeardown : Bool
deriving DecidableEq

/-- Modelled from the spec: a `DependencyGraph` — the nodes in declaration
order plus the derived edge set (parent→child ownership and explicit
extra-dependency edges), each edge as `(producer id, consumer id)`. -/
structure DependencyGraph where
  nodes : List ResourceNode
  edges : List (Nat × Nat)
deriving DecidableEq

/-- Modelled from the spec: a node is ready when every edge into it comes
from a producer no longer waiting. -/
def ready (remaining : List ResourceNode) (edges : List (Nat × Nat))
    (n : ResourceNode) : Bool :=
  edges.all (fun e => !(e.2 == n.id) || remaining.all (fun m => !(m.id == e.1)))

/-- Modelled from the spec: Kahn's algorithm with ties broken by declaration
order — repeatedly emit the first remaining node all of whose producers have
been emitted. -/
def kahnAux : Nat → List ResourceNode → List (Nat × Nat) → List ResourceNode
  | 0, _, _ => []
  | Nat.succ fuel, remaining, edges =>
    match remaining.find? (ready remaining edges) with
    | none => []
    | some n => n :: kahnAux fuel (remaining.erase n) edges

/-- Modelled from the spec: `resolveCreationOrder()` — a topological sort over
parent/child and extra-dependency edges, ties broken by declaration order. -/
def resolveCreationOrder (g : DependencyGraph) : List ResourceNode :=
  kahnAux g.nodes.length g.nodes g.edges

/-- Modelled from the spec: `resolveTeardownOrder()` — the reverse of the
creation order. -/
def resolveTeardownOrder (g : DependencyGraph) : List ResourceNode :=
  (resolveCreationOrder g).reverse

/-- The observable outcome of a teardown pass: the sequence of issued external
deletion calls and the remaining tracking set. -/
structure TeardownResult where
  deletionCalls : List ResourceNode
  tracking : List ResourceNode
deriving DecidableEq

/-- Modelled from the spec: processing one node during teardown — a
`retainOnTeardown` node is dropped from tracking with no deletion call
issued; any other node is dropped from tracking and a deletion call is
issued for it. -/
def teardownStep (st : TeardownResult) (n : ResourceNode) : TeardownResult :=
  { deletionCalls := if n.retainOnTeardown then st.deletionCalls else st.deletionCalls ++ [n]
    tracking := st.tracking.filter (fun m => !(n.id == m.id)) }

/-- Modelled from the spec: the whole teardown pass walks
`resolveTeardownOrder` starting from the full tracking set. -/
def runTeardown (g : DependencyGraph) : TeardownResult :=
  (resolveTeardownOrder g).foldl teardownStep { deletionCalls := [], tracking := g.nodes }

/-- The deletion calls issued by a teardown walk are exactly the
non-retained nodes, in walk order. -/
lemma teardown_foldl_deletion : ∀ (order : List ResourceNode) (st : TeardownResult),
    (order.foldl teardownStep st).deletionCalls =
      st.deletionCalls ++ order.filter (fun n => !n.retainOnTeardown) := by
  intro order
  induction order with
  | nil => intro st; simp
  | cons n order' ih =>
    intro st
    rw [List.foldl_cons, ih]
    by_cases hr : n.retainOnTeardown <;> simp [teardownStep, hr, List.filter_cons]

/-- A teardown walk removes every walked node — retained or not — from the
tracking set. -/
lemma teardown_foldl_tracking : ∀ (order : List ResourceNode) (st : TeardownResult),
    (order.foldl teardownStep st).tracking =
      st.tracking.filter (fun m => order.all (fun n => !(n.id == m.id))) := by
  intro order
  induction order with
  | nil => intro st; simp
  | cons n order' ih =>
    intro st
    rw [List.foldl_cons, ih]
    show (st.tracking.filter (fun m => !(n.id == m.id))).filter
        (fun m => order'.all (fun nn => !(nn.id == m.id))) = _
    rw [List.filter_filter]
    refine List.filter_congr ?_
    intro m _
    simp [List.all_cons, Bool.and_comm]

/-- C9: for any dependency graph, `resolveTeardownOrder` is the exact reverse
of `resolveCreationOrder`; the teardown pass issues deletion calls exactly
for the non-`retainOnTeardown` nodes of that order, and removes every walked
node — including retained ones — from the post-teardown tracking set. -/
theorem claim9_teardown_order : ∀ g : DependencyGraph,
    resolveTeardownOrder g = (resolveCreationOrder g).reverse ∧
    (runTeardown g).deletionCalls =
      (resolveTeardownOrder g).filter (fun n => !n.retainOnTeardown) ∧
    (runTeardown g).tracking =
      g.nodes.filter (fun m => (resolveTeardownOrder g).all (fun n => !(n.id == m.id))) := by
  intro g
  refine ⟨rfl, ?_, ?_⟩
  · rw [runTeardown, teardown_foldl_deletion]
    rfl
  · rw [runTeardown, teardown_foldl_tracking]

end Omnicloud
